import Mathlib

/-!
Shallow embedding of the asynchronous character-device driver in
`embxx/driver/Character.h` (namespaces `embxx::driver` and
`embxx::driver::details`).

Modelling conventions:

* Pointers into the caller's buffer become natural-number addresses; the
  pointer difference `current_ - start_` becomes `current - start` on `Nat`.
* A completion handler is identified by a natural-number id; the handler
  slot of a `ReadInfo` / `WriteInfo` is an `Option Nat` (`none` models both
  an empty `std::function` and a moved-from slot).
* The read-until predicate slot is `Option (Nat → Bool)`: `none` models
  `std::nullptr_t` (the compile-time-disabled facility) as well as an empty
  predicate object, so `seekedCharFound` collapses the two C++ overloads
  (`ReadUntilValid` / `ReadUntilInvalid`) into one function that tests the
  stored predicate when present and returns `false` otherwise.
* Posting a bound handler to the event loop (`el_.post` /
  `el_.postInterruptCtx`) is modelled as emitting a `Post` record; the list
  of emitted posts, in order, is the observable behaviour.
* Calls into the device control object are recorded as a `DevOp` trace.
* ISR entry points are driven by an explicit device oracle: a "can read"
  interrupt carries the list of bytes the device offers during that
  interrupt (`canRead` is true while bytes remain and the operation has not
  been cancelled) and a flag `completionImminent` telling whether
  `cancelRead(InterruptCtx)` fails (the device contract: the cancel returns
  false exactly when the "read complete" interrupt is already unavoidable).
  Per the device contract, a successful cancel disarms read interrupts, so
  no further `canRead` succeeds within the same interrupt; bytes for an
  operation re-armed by `startRead` arrive in a later interrupt.
* Writes into the caller's buffer are recorded as `(address, byte)` pairs;
  the "read complete" ISR reads the last stored byte through an explicit
  memory parameter `mem : Nat → Nat`.
-/

namespace Embxx

/-- Error kinds from `embxx/error/ErrorStatus.h` used by the driver, plus a
representative device-reported hardware error. -/
inductive ErrorCode where
  | Success
  | Aborted
  | BufferOverflow
  | HwProtocolError
  deriving DecidableEq, Repr

/-- Truthiness of `embxx::error::ErrorStatus`: true exactly when the code is
not `Success`. -/
def isError (es : ErrorCode) : Bool := es != ErrorCode.Success

/-- A completion handler bound with its arguments and posted to the event
loop: handler id, error status, reported byte count, and whether it was
posted via `postInterruptCtx` (true) or `post` (false). -/
structure Post where
  handler : Nat
  es : ErrorCode
  count : Nat
  fromIsr : Bool
  deriving DecidableEq, Repr

/-- Trace entries for calls into the device control object. -/
inductive DevOp where
  | suspendDev
  | resumeDev
  | startRead (n : Nat) (interruptCtx : Bool)
  | cancelRead (interruptCtx : Bool)
  | startWrite (n : Nat)
  | cancelWrite
  deriving DecidableEq, Repr

/-- `details::CharacterReadSupportBase::ReadInfo`: per-request read state. -/
structure ReadInfo where
  start : Nat
  current : Nat
  bufSize : Nat
  handler : Option Nat
  pred : Option (Nat → Bool)

/-- `details::CharacterWriteSupportBase::WriteInfo`: per-request write
state. -/
structure WriteInfo where
  start : Nat
  current : Nat
  bufSize : Nat
  handler : Option Nat

/-- `details::invokeHandler` instantiated at `ReadInfo`: computes
`sizeToReport = current - start`, moves the handler out of the slot, binds
`(es, sizeToReport)` and posts it to the event loop (`postInterruptCtx`
when `interruptCtx`, `post` otherwise). Returns the updated info (handler
slot emptied) and the emitted post (`none` when the slot was empty, which
the source treats as a fatal assertion). -/
def invokeHandler (info : ReadInfo) (es : ErrorCode) (interruptCtx : Bool) :
    ReadInfo × Option Post :=
  ({ info with handler := none },
   info.handler.map fun h => ⟨h, es, info.current - info.start, interruptCtx⟩)

/-- `details::invokeHandler` instantiated at `WriteInfo`. -/
def invokeHandlerW (info : WriteInfo) (es : ErrorCode) (interruptCtx : Bool) :
    WriteInfo × Option Post :=
  ({ info with handler := none },
   info.handler.map fun h => ⟨h, es, info.current - info.start, interruptCtx⟩)

/-- `CharacterReadSupportBase::seekedCharFound`: true when a read-until
predicate is stored and accepts `ch`; the `ReadUntilInvalid` overload (the
predicate facility compiled away) and an empty stored predicate both yield
`false`. -/
def seekedCharFound (ch : Nat) (info : ReadInfo) : Bool :=
  match info.pred with
  | some p => p ch
  | none => false

/-- The `ReadInfo` constructed by `queue_.emplaceBack(buf, size, func, pred)`
and by `initRead`: cursor at the buffer base. -/
def mkReadInfo (buf size h : Nat) (pred : Option (Nat → Bool)) : ReadInfo :=
  ⟨buf, buf, size, some h, pred⟩

/-! ### Queued read engine: `CharacterReadSupport<..., TMaxPendingReads>` -/

namespace CharacterReadSupportQ

/-- `startNextRead(interruptCtx)`: while the queue is nonempty, a zero-size
front request is completed immediately (`Success`, or `BufferOverflow`
when a predicate is stored) and popped; the first front with nonzero size
causes `device.startRead(bufSize, ctx)` and the loop breaks. Returns the
remaining queue, the emitted posts and the device-op trace. -/
def startNextRead (interruptCtx : Bool) :
    List ReadInfo → List ReadInfo × List Post × List DevOp
  | [] => ([], [], [])
  | info :: rest =>
    if info.bufSize = 0 then
      ((startNextRead interruptCtx rest).1,
       (invokeHandler info
          (if info.pred.isSome then ErrorCode.BufferOverflow else ErrorCode.Success)
          interruptCtx).2.toList
         ++ (startNextRead interruptCtx rest).2.1,
       (startNextRead interruptCtx rest).2.2)
    else
      (info :: rest, [], [DevOp.startRead info.bufSize interruptCtx])

/-- `asyncReadUntil(buf, size, pred, func)` for the queued engine. The
device is suspended (`wasRunning` is the value returned by
`device.suspend(EventLoopCtx)`), the new request is placed at the back of
the queue; if the device was running it is resumed and nothing else
happens, otherwise `startNextRead(false)` runs. -/
def asyncReadUntil (wasRunning : Bool) (q : List ReadInfo)
    (buf size : Nat) (pred : Option (Nat → Bool)) (h : Nat) :
    List ReadInfo × List Post × List DevOp :=
  if wasRunning then
    (q ++ [mkReadInfo buf size h pred], [], [DevOp.suspendDev, DevOp.resumeDev])
  else
    ((startNextRead false (q ++ [mkReadInfo buf size h pred])).1,
     (startNextRead false (q ++ [mkReadInfo buf size h pred])).2.1,
     DevOp.suspendDev :: (startNextRead false (q ++ [mkReadInfo buf size h pred])).2.2)

/-- `asyncRead(buf, size, func)` for the queued engine: delegates to
`asyncReadUntil` with a default-constructed (absent) predicate. -/
def asyncRead (wasRunning : Bool) (q : List ReadInfo) (buf size h : Nat) :
    List ReadInfo × List Post × List DevOp :=
  asyncReadUntil wasRunning q buf size none h

/-- `cancelRead()` for the queued engine: `devCancelOk` is the value
returned by `device.cancelRead(EventLoopCtx)`. When it is false the queue
is (asserted) empty and nothing is posted; otherwise every queued request
is completed with `Aborted` at its current cursor and the queue is
cleared. Returns (result, remaining queue, posts). -/
def cancelRead (devCancelOk : Bool) (q : List ReadInfo) :
    Bool × List ReadInfo × List Post :=
  if devCancelOk then
    (true, [], q.filterMap fun i => (invokeHandler i ErrorCode.Aborted false).2)
  else
    (false, q, [])

/-- Body of `canReadInterruptHandler` after the front request has been
fetched. `pending` lists the bytes the device offers during this interrupt
(in order), `completionImminent` tells whether in-interrupt cancels fail.
Each iteration: if the cursor has reached the end of the buffer the loop
breaks (fatal assertion) without storing; otherwise the byte is stored at
`current` and the cursor advances; if the stored predicate accepts the
byte, `device.cancelRead(InterruptCtx)` is attempted — on success the
front is completed with `Success`, popped, and `startNextRead(true)` runs
(the successful cancel disarms the device, ending the drain); on failure
nothing happens and draining continues. Returns the queue, the posts, the
buffer writes as `(address, byte)` pairs, and the device-op trace. -/
def canReadLoop (completionImminent : Bool) :
    List Nat → ReadInfo → List ReadInfo →
    List ReadInfo × List Post × List (Nat × Nat) × List DevOp
  | [], info, rest => (info :: rest, [], [], [])
  | ch :: more, info, rest =>
    if info.start + info.bufSize ≤ info.current then
      (info :: rest, [], [], [])
    else
      if seekedCharFound ch info then
        if completionImminent then
          ((canReadLoop completionImminent more { info with current := info.current + 1 } rest).1,
           (canReadLoop completionImminent more { info with current := info.current + 1 } rest).2.1,
           (info.current, ch) ::
             (canReadLoop completionImminent more { info with current := info.current + 1 } rest).2.2.1,
           DevOp.cancelRead true ::
             (canReadLoop completionImminent more { info with current := info.current + 1 } rest).2.2.2)
        else
          ((startNextRead true rest).1,
           (invokeHandler { info with current := info.current + 1 }
              ErrorCode.Success true).2.toList ++ (startNextRead true rest).2.1,
           [(info.current, ch)],
           DevOp.cancelRead true :: (startNextRead true rest).2.2)
      else
        ((canReadLoop completionImminent more { info with current := info.current + 1 } rest).1,
         (canReadLoop completionImminent more { info with current := info.current + 1 } rest).2.1,
         (info.current, ch) ::
           (canReadLoop completionImminent more { info with current := info.current + 1 } rest).2.2.1,
         (canReadLoop completionImminent more { info with current := info.current + 1 } rest).2.2.2)

/-- `canReadInterruptHandler` for the queued engine: asserts the queue is
nonempty, fetches the front, and drains. An empty queue (assertion
failure) is modelled as a no-op. -/
def canReadInterruptHandler (completionImminent : Bool) (pending : List Nat) :
    List ReadInfo → List ReadInfo × List Post × List (Nat × Nat) × List DevOp
  | [] => ([], [], [], [])
  | info :: rest => canReadLoop completionImminent pending info rest

/-- `readCompleteInterruptHandler(es)` for the queued engine: the front
request is completed — with `es` when `es` is an error or the last stored
byte (read back from the buffer `mem`) does not satisfy the stored
predicate, with `BufferOverflow` otherwise — then popped, and
`startNextRead(true)` runs. An empty queue (assertion failure) is a
no-op. -/
def readCompleteInterruptHandler (mem : Nat → Nat) (es : ErrorCode) :
    List ReadInfo → List ReadInfo × List Post × List DevOp
  | [] => ([], [], [])
  | info :: rest =>
    ((startNextRead true rest).1,
     (invokeHandler info
        (if isError es || !seekedCharFound (mem (info.current - 1)) info then es
         else ErrorCode.BufferOverflow) true).2.toList
       ++ (startNextRead true rest).2.1,
     (startNextRead true rest).2.2)

end CharacterReadSupportQ

/-! ### Single-slot read engine: `CharacterReadSupport<..., 1U>` -/

namespace CharacterReadSupport1

/-- `initRead(buf, size)`: resets start/current/bufSize on the single slot;
a zero-size request is completed immediately (`Success`, or
`BufferOverflow` when a predicate is stored) without touching the device;
otherwise `device.startRead(size, EventLoopCtx)` is called. -/
def initRead (buf size : Nat) (info : ReadInfo) :
    ReadInfo × Option Post × List DevOp :=
  if size = 0 then
    ((invokeHandler { info with start := buf, current := buf, bufSize := size }
        (if info.pred.isSome then ErrorCode.BufferOverflow else ErrorCode.Success)
        false).1,
     (invokeHandler { info with start := buf, current := buf, bufSize := size }
        (if info.pred.isSome then ErrorCode.BufferOverflow else ErrorCode.Success)
        false).2,
     [])
  else
    ({ info with start := buf, current := buf, bufSize := size }, none,
     [DevOp.startRead size false])

/-- `asyncRead(buf, size, func)` for the single-slot engine: stores the
handler, clears the predicate slot, then `initRead`. -/
def asyncRead (info : ReadInfo) (buf size h : Nat) :
    ReadInfo × Option Post × List DevOp :=
  initRead buf size { info with handler := some h, pred := none }

/-- `asyncReadUntil(buf, size, pred, func)` for the single-slot engine:
stores the handler and the predicate, then `initRead`. -/
def asyncReadUntil (info : ReadInfo) (buf size : Nat)
    (pred : Option (Nat → Bool)) (h : Nat) :
    ReadInfo × Option Post × List DevOp :=
  initRead buf size { info with handler := some h, pred := pred }

/-- `cancelRead()` for the single-slot engine: when
`device.cancelRead(EventLoopCtx)` returns false nothing happens and false
is returned; otherwise the slot is completed with `Aborted` at the current
cursor and true is returned. -/
def cancelRead (devCancelOk : Bool) (info : ReadInfo) :
    Bool × ReadInfo × Option Post :=
  if devCancelOk then
    (true, (invokeHandler info ErrorCode.Aborted false).1,
     (invokeHandler info ErrorCode.Aborted false).2)
  else
    (false, info, none)

/-- `canReadInterruptHandler` for the single-slot engine: same drain loop
as the queued engine, minus queue management — on a predicate match with a
successful in-interrupt cancel the slot is completed with `Success` (and
the disarmed device ends the drain). Returns the slot, posts, buffer
writes and device-op trace. -/
def canReadInterruptHandler (completionImminent : Bool) :
    List Nat → ReadInfo → ReadInfo × List Post × List (Nat × Nat) × List DevOp
  | [], info => (info, [], [], [])
  | ch :: more, info =>
    if info.start + info.bufSize ≤ info.current then
      (info, [], [], [])
    else
      if seekedCharFound ch info then
        if completionImminent then
          ((canReadInterruptHandler completionImminent more { info with current := info.current + 1 }).1,
           (canReadInterruptHandler completionImminent more { info with current := info.current + 1 }).2.1,
           (info.current, ch) ::
             (canReadInterruptHandler completionImminent more { info with current := info.current + 1 }).2.2.1,
           DevOp.cancelRead true ::
             (canReadInterruptHandler completionImminent more { info with current := info.current + 1 }).2.2.2)
        else
          ((invokeHandler { info with current := info.current + 1 } ErrorCode.Success true).1,
           (invokeHandler { info with current := info.current + 1 } ErrorCode.Success true).2.toList,
           [(info.current, ch)],
           [DevOp.cancelRead true])
      else
        ((canReadInterruptHandler completionImminent more { info with current := info.current + 1 }).1,
         (canReadInterruptHandler completionImminent more { info with current := info.current + 1 }).2.1,
         (info.current, ch) ::
           (canReadInterruptHandler completionImminent more { info with current := info.current + 1 }).2.2.1,
         (canReadInterruptHandler completionImminent more { info with current := info.current + 1 }).2.2.2)

/-- `readCompleteInterruptHandler(es)` for the single-slot engine: the slot
is completed with `es` when `es` is an error or the last stored byte does
not satisfy the stored predicate, with `BufferOverflow` otherwise. -/
def readCompleteInterruptHandler (mem : Nat → Nat) (es : ErrorCode)
    (info : ReadInfo) : ReadInfo × Option Post :=
  invokeHandler info
    (if isError es || !seekedCharFound (mem (info.current - 1)) info then es
     else ErrorCode.BufferOverflow) true

end CharacterReadSupport1

/-! ### Single-slot write engine: `CharacterWriteSupport<..., 1U>` -/

namespace CharacterWriteSupport1

/-- `initWrite(buf, size)`: resets start/current/bufSize; a zero-size
request is completed immediately with `Success` without touching the
device; otherwise `device.startWrite(size, EventLoopCtx)` is called. -/
def initWrite (buf size : Nat) (info : WriteInfo) :
    WriteInfo × Option Post × List DevOp :=
  if size = 0 then
    ((invokeHandlerW { info with start := buf, current := buf, bufSize := size }
        ErrorCode.Success false).1,
     (invokeHandlerW { info with start := buf, current := buf, bufSize := size }
        ErrorCode.Success false).2,
     [])
  else
    ({ info with start := buf, current := buf, bufSize := size }, none,
     [DevOp.startWrite size])

/-- `asyncWrite(buf, size, func)`: stores the handler, then `initWrite`. -/
def asyncWrite (info : WriteInfo) (buf size h : Nat) :
    WriteInfo × Option Post × List DevOp :=
  initWrite buf size { info with handler := some h }

/-- `cancelWrite()`: when `device.cancelWrite(EventLoopCtx)` returns false
nothing happens and false is returned; otherwise the slot is completed
with `Aborted` at the current cursor and true is returned. -/
def cancelWrite (devCancelOk : Bool) (info : WriteInfo) :
    Bool × WriteInfo × Option Post :=
  if devCancelOk then
    (true, (invokeHandlerW info ErrorCode.Aborted false).1,
     (invokeHandlerW info ErrorCode.Aborted false).2)
  else
    (false, info, none)

/-- `canWriteInterruptHandler`: while the device accepts bytes (`space` is
the number of `canWrite` successes the device offers this interrupt), if
the cursor has reached the end of the buffer the loop breaks (fatal
assertion) without fetching; otherwise the byte at `current` is fetched
from the caller's buffer `mem` and written to the device, and the cursor
advances. Returns the slot and the `(address, byte)` pairs sent to the
device. -/
def canWriteInterruptHandler (mem : Nat → Nat) :
    Nat → WriteInfo → WriteInfo × List (Nat × Nat)
  | 0, info => (info, [])
  | space + 1, info =>
    if info.start + info.bufSize ≤ info.current then
      (info, [])
    else
      ((canWriteInterruptHandler mem space { info with current := info.current + 1 }).1,
       (info.current, mem info.current) ::
         (canWriteInterruptHandler mem space { info with current := info.current + 1 }).2)

/-- `writeCompleteInterruptHandler(es)`: completes the slot with the
device-reported status. -/
def writeCompleteInterruptHandler (es : ErrorCode) (info : WriteInfo) :
    WriteInfo × Option Post :=
  invokeHandlerW info es true

end CharacterWriteSupport1

/-! ### Event traces

To state ordering properties we run the engines over a list of events:
request submissions interleaved with device interrupts, with no
intervening cancel. -/

/-- One event in the life of the queued read engine. -/
inductive REvent where
  | submit (wasRunning : Bool) (buf size : Nat) (pred : Option (Nat → Bool)) (h : Nat)
  | canRead (completionImminent : Bool) (pending : List Nat)
  | complete (mem : Nat → Nat) (es : ErrorCode)

/-- State of the queued read engine together with the posts accumulated on
the event loop, in order. -/
structure RState where
  queue : List ReadInfo
  posts : List Post

/-- One step of the queued read engine. -/
def rstep (s : RState) : REvent → RState
  | .submit w buf size pred h =>
    ⟨(CharacterReadSupportQ.asyncReadUntil w s.queue buf size pred h).1,
     s.posts ++ (CharacterReadSupportQ.asyncReadUntil w s.queue buf size pred h).2.1⟩
  | .canRead ci pending =>
    ⟨(CharacterReadSupportQ.canReadInterruptHandler ci pending s.queue).1,
     s.posts ++ (CharacterReadSupportQ.canReadInterruptHandler ci pending s.queue).2.1⟩
  | .complete mem es =>
    ⟨(CharacterReadSupportQ.readCompleteInterruptHandler mem es s.queue).1,
     s.posts ++ (CharacterReadSupportQ.readCompleteInterruptHandler mem es s.queue).2.1⟩

/-- Run the queued read engine over a list of events. -/
def rrun (s : RState) (evs : List REvent) : RState :=
  evs.foldl rstep s

/-- Handler ids of the requests submitted by a list of events, in
submission order. -/
def submittedIds (evs : List REvent) : List Nat :=
  evs.filterMap fun e =>
    match e with
    | .submit _ _ _ _ h => some h
    | _ => none

/-- Handler ids still stored in a queue. -/
def queueIds (q : List ReadInfo) : List Nat :=
  q.filterMap ReadInfo.handler

/-- One event in the life of the single-slot write engine. -/
inductive WEvent where
  | submit (buf size h : Nat)
  | canWrite (mem : Nat → Nat) (space : Nat)
  | complete (es : ErrorCode)

/-- State of the single-slot write engine with accumulated posts. -/
structure WState where
  slot : WriteInfo
  posts : List Post

/-- One step of the single-slot write engine. -/
def wstep (s : WState) : WEvent → WState
  | .submit buf size h =>
    ⟨(CharacterWriteSupport1.asyncWrite s.slot buf size h).1,
     s.posts ++ (CharacterWriteSupport1.asyncWrite s.slot buf size h).2.1.toList⟩
  | .canWrite mem space =>
    ⟨(CharacterWriteSupport1.canWriteInterruptHandler mem space s.slot).1, s.posts⟩
  | .complete es =>
    ⟨(CharacterWriteSupport1.writeCompleteInterruptHandler es s.slot).1,
     s.posts ++ (CharacterWriteSupport1.writeCompleteInterruptHandler es s.slot).2.toList⟩

/-- Run the single-slot write engine over a list of events. -/
def wrun (s : WState) (evs : List WEvent) : WState :=
  evs.foldl wstep s

/-- Handler ids submitted by a list of write events, in order. -/
def wsubmittedIds (evs : List WEvent) : List Nat :=
  evs.filterMap fun e =>
    match e with
    | .submit _ _ h => some h
    | _ => none

/-- Well-formedness of a write trace from a given state: `asyncWrite` is
called only when no write is in progress (the source's
`GASSERT(!info_.handler_)` precondition). -/
def wwf (s : WState) : List WEvent → Bool
  | [] => true
  | ev :: evs =>
    (match ev with
     | .submit _ _ _ => s.slot.handler.isNone
     | _ => true) && wwf (wstep s ev) evs

/-! ### Helper lemmas: handler-id conservation -/

theorem invokeHandler_post_ids (info : ReadInfo) (es : ErrorCode) (ictx : Bool) :
    (invokeHandler info es ictx).2.toList.map Post.handler = info.handler.toList := by
  cases h : info.handler <;> simp [invokeHandler, h]

theorem queueIds_cons (i : ReadInfo) (q : List ReadInfo) :
    queueIds (i :: q) = i.handler.toList ++ queueIds q := by
  cases h : i.handler <;> simp [queueIds, h, List.filterMap_cons]

theorem queueIds_append (q r : List ReadInfo) :
    queueIds (q ++ r) = queueIds q ++ queueIds r := by
  simp [queueIds, List.filterMap_append]

theorem startNextRead_ids (ictx : Bool) (q : List ReadInfo) :
    (CharacterReadSupportQ.startNextRead ictx q).2.1.map Post.handler
      ++ queueIds (CharacterReadSupportQ.startNextRead ictx q).1 = queueIds q := by
  induction q with
  | nil => simp [CharacterReadSupportQ.startNextRead, queueIds]
  | cons info rest ih =>
    by_cases h : info.bufSize = 0
    · simp only [CharacterReadSupportQ.startNextRead, h, if_true, List.map_append,
        invokeHandler_post_ids, List.append_assoc, ih, queueIds_cons]
    · simp [CharacterReadSupportQ.startNextRead, h]

theorem canReadLoop_ids (ci : Bool) (pending : List Nat) (info : ReadInfo)
    (rest : List ReadInfo) :
    (CharacterReadSupportQ.canReadLoop ci pending info rest).2.1.map Post.handler
      ++ queueIds (CharacterReadSupportQ.canReadLoop ci pending info rest).1
      = queueIds (info :: rest) := by
  induction pending generalizing info with
  | nil => simp [CharacterReadSupportQ.canReadLoop]
  | cons ch more ih =>
    by_cases hb : info.start + info.bufSize ≤ info.current
    · simp [CharacterReadSupportQ.canReadLoop, hb]
    · by_cases hs : seekedCharFound ch info
      · cases ci with
        | true =>
          simpa only [CharacterReadSupportQ.canReadLoop, hb, if_false, hs, if_true,
            queueIds_cons] using ih { info with current := info.current + 1 }
        | false =>
          simp [CharacterReadSupportQ.canReadLoop, hb, hs, List.map_append,
            invokeHandler_post_ids, List.append_assoc, startNextRead_ids,
            queueIds_cons]
      · simpa only [CharacterReadSupportQ.canReadLoop, hb, if_false, hs,
          queueIds_cons] using ih { info with current := info.current + 1 }

theorem canReadInterruptHandler_ids (ci : Bool) (pending : List Nat)
    (q : List ReadInfo) :
    (CharacterReadSupportQ.canReadInterruptHandler ci pending q).2.1.map Post.handler
      ++ queueIds (CharacterReadSupportQ.canReadInterruptHandler ci pending q).1
      = queueIds q := by
  cases q with
  | nil => simp [CharacterReadSupportQ.canReadInterruptHandler, queueIds]
  | cons info rest =>
    exact canReadLoop_ids ci pending info rest

theorem readCompleteInterruptHandler_ids (mem : Nat → Nat) (es : ErrorCode)
    (q : List ReadInfo) :
    (CharacterReadSupportQ.readCompleteInterruptHandler mem es q).2.1.map Post.handler
      ++ queueIds (CharacterReadSupportQ.readCompleteInterruptHandler mem es q).1
      = queueIds q := by
  cases q with
  | nil => simp [CharacterReadSupportQ.readCompleteInterruptHandler, queueIds]
  | cons info rest =>
    simp only [CharacterReadSupportQ.readCompleteInterruptHandler, List.map_append,
      invokeHandler_post_ids, List.append_assoc, startNextRead_ids, queueIds_cons]

theorem asyncReadUntil_ids (w : Bool) (q : List ReadInfo) (buf size : Nat)
    (pred : Option (Nat → Bool)) (h : Nat) :
    (CharacterReadSupportQ.asyncReadUntil w q buf size pred h).2.1.map Post.handler
      ++ queueIds (CharacterReadSupportQ.asyncReadUntil w q buf size pred h).1
      = queueIds q ++ [h] := by
  cases w with
  | true =>
    simp [CharacterReadSupportQ.asyncReadUntil, queueIds_append, queueIds_cons,
      queueIds, mkReadInfo]
  | false =>
    simp only [CharacterReadSupportQ.asyncReadUntil, if_false, Bool.false_eq_true,
      startNextRead_ids, queueIds_append]
    simp [queueIds_cons, queueIds, mkReadInfo]

theorem rrun_ids (s : RState) (evs : List REvent) :
    (rrun s evs).posts.map Post.handler ++ queueIds (rrun s evs).queue
      = s.posts.map Post.handler ++ queueIds s.queue ++ submittedIds evs := by
  induction evs generalizing s with
  | nil => simp [rrun, submittedIds]
  | cons ev evs ih =>
    have hstep : (rstep s ev).posts.map Post.handler ++ queueIds (rstep s ev).queue
        = s.posts.map Post.handler ++ queueIds s.queue
          ++ (match ev with
              | .submit _ _ _ _ h => [h]
              | _ => []) := by
      cases ev with
      | submit w buf size pred h =>
        simp only [rstep, List.map_append, List.append_assoc, asyncReadUntil_ids]
      | canRead ci pending =>
        simp only [rstep, List.map_append, List.append_assoc,
          canReadInterruptHandler_ids, List.append_nil]
      | complete mem es =>
        simp only [rstep, List.map_append, List.append_assoc,
          readCompleteInterruptHandler_ids, List.append_nil]
    have : rrun s (ev :: evs) = rrun (rstep s ev) evs := by
      simp [rrun]
    rw [this, ih, hstep]
    cases ev <;> simp [submittedIds, List.filterMap_cons]

theorem invokeHandlerW_post_ids (info : WriteInfo) (es : ErrorCode) (ictx : Bool) :
    (invokeHandlerW info es ictx).2.toList.map Post.handler = info.handler.toList := by
  cases h : info.handler <;> simp [invokeHandlerW, h]

theorem canWriteInterruptHandler_handler (mem : Nat → Nat) (space : Nat)
    (info : WriteInfo) :
    (CharacterWriteSupport1.canWriteInterruptHandler mem space info).1.handler
      = info.handler := by
  induction space generalizing info with
  | zero => simp [CharacterWriteSupport1.canWriteInterruptHandler]
  | succ n ih =>
    by_cases hb : info.start + info.bufSize ≤ info.current
    · simp [CharacterWriteSupport1.canWriteInterruptHandler, hb]
    · simpa [CharacterWriteSupport1.canWriteInterruptHandler, hb] using
        ih { info with current := info.current + 1 }

theorem wrun_ids (s : WState) (evs : List WEvent) (hwf : wwf s evs = true) :
    (wrun s evs).posts.map Post.handler ++ (wrun s evs).slot.handler.toList
      = s.posts.map Post.handler ++ s.slot.handler.toList ++ wsubmittedIds evs := by
  induction evs generalizing s with
  | nil => simp [wrun, wsubmittedIds]
  | cons ev evs ih =>
    have hwf' : wwf (wstep s ev) evs = true := by
      have := hwf
      simp only [wwf, Bool.and_eq_true] at this
      exact this.2
    have hrun : wrun s (ev :: evs) = wrun (wstep s ev) evs := by simp [wrun]
    have hstep : (wstep s ev).posts.map Post.handler ++ (wstep s ev).slot.handler.toList
        = s.posts.map Post.handler ++ s.slot.handler.toList
          ++ (match ev with
              | .submit _ _ h => [h]
              | _ => []) := by
      cases ev with
      | submit buf size h =>
        have hnone : s.slot.handler = none := by
          have := hwf
          simp only [wwf, Bool.and_eq_true] at this
          exact Option.isNone_iff_eq_none.mp this.1
        by_cases hz : size = 0 <;>
          simp [wstep, CharacterWriteSupport1.asyncWrite,
            CharacterWriteSupport1.initWrite, hz, invokeHandlerW, hnone]
      | canWrite mem space =>
        simp [wstep, canWriteInterruptHandler_handler]
      | complete es =>
        cases h : s.slot.handler <;>
          simp [wstep, CharacterWriteSupport1.writeCompleteInterruptHandler,
            invokeHandlerW, h]
    rw [hrun, ih _ hwf', hstep]
    cases ev <;> simp [wsubmittedIds, List.filterMap_cons]

/-! ### Claims -/

/-- C1: for every accepted request, the dispatch primitive
(`details::invokeHandler`, at both its read and write instantiations) posts
the stored completion handler exactly once — the emitted post carries the
handler id and reports `current - start` bytes, the handler slot is empty
afterwards, and a second dispatch on the emptied slot emits nothing.
Moreover, over any event trace of the queued read engine, the handler ids
posted to the event loop together with the ids still queued are exactly
the ids accepted, in order: no handler is posted twice or dropped. -/
theorem c1_handler_posted_exactly_once (info : ReadInfo) (winfo : WriteInfo)
    (es es2 : ErrorCode) (ictx ictx2 : Bool) (hr hw : Nat) (evs : List REvent)
    (h1 : info.handler = some hr) (h2 : winfo.handler = some hw) :
    (invokeHandler info es ictx).2 = some ⟨hr, es, info.current - info.start, ictx⟩ ∧
    (invokeHandler info es ictx).1.handler = none ∧
    (invokeHandler (invokeHandler info es ictx).1 es2 ictx2).2 = none ∧
    (invokeHandlerW winfo es ictx).2 = some ⟨hw, es, winfo.current - winfo.start, ictx⟩ ∧
    (invokeHandlerW winfo es ictx).1.handler = none ∧
    (invokeHandlerW (invokeHandlerW winfo es ictx).1 es2 ictx2).2 = none ∧
    (rrun ⟨[], []⟩ evs).posts.map Post.handler ++ queueIds (rrun ⟨[], []⟩ evs).queue
      = submittedIds evs := by
  refine ⟨?_, ?_, ?_, ?_, ?_, ?_, ?_⟩ <;>
    first
      | simp [invokeHandler, invokeHandlerW, h1, h2]
      | simpa [queueIds] using rrun_ids ⟨[], []⟩ evs

/-- Witness for C1 at concrete inputs. -/
theorem c1_handler_posted_exactly_once_witness :
    (⟨0, 2, 4, some 5, none⟩ : ReadInfo).handler = some 5 ∧
    (⟨0, 3, 4, some 6⟩ : WriteInfo).handler = some 6 ∧
    ((invokeHandler ⟨0, 2, 4, some 5, none⟩ ErrorCode.Success true).2
        = some ⟨5, ErrorCode.Success, 2, true⟩ ∧
     (invokeHandler ⟨0, 2, 4, some 5, none⟩ ErrorCode.Success true).1.handler = none ∧
     (invokeHandler (invokeHandler ⟨0, 2, 4, some 5, none⟩ ErrorCode.Success true).1
        ErrorCode.Aborted false).2 = none ∧
     (invokeHandlerW ⟨0, 3, 4, some 6⟩ ErrorCode.Success true).2
        = some ⟨6, ErrorCode.Success, 3, true⟩ ∧
     (invokeHandlerW ⟨0, 3, 4, some 6⟩ ErrorCode.Success true).1.handler = none ∧
     (invokeHandlerW (invokeHandlerW ⟨0, 3, 4, some 6⟩ ErrorCode.Success true).1
        ErrorCode.Aborted false).2 = none ∧
     (rrun ⟨[], []⟩ [REvent.submit false 0 1 none 9]).posts.map Post.handler
        ++ queueIds (rrun ⟨[], []⟩ [REvent.submit false 0 1 none 9]).queue
        = submittedIds [REvent.submit false 0 1 none 9]) :=
  ⟨rfl, rfl,
   c1_handler_posted_exactly_once ⟨0, 2, 4, some 5, none⟩ ⟨0, 3, 4, some 6⟩
     ErrorCode.Success ErrorCode.Aborted true false 5 6
     [REvent.submit false 0 1 none 9] rfl rfl⟩

/-- C7: over any event trace without an intervening cancel, the handler ids
posted by the queued read engine form a prefix of the submission order —
completions are delivered first-in-first-out; the same holds for the
single-slot write engine on any well-formed trace. -/
theorem c7_fifo_order (evs : List REvent) (wevs : List WEvent)
    (hwf : wwf ⟨⟨0, 0, 0, none⟩, []⟩ wevs = true) :
    (∃ pendingIds, (rrun ⟨[], []⟩ evs).posts.map Post.handler ++ pendingIds
        = submittedIds evs) ∧
    (∃ pendingIds, (wrun ⟨⟨0, 0, 0, none⟩, []⟩ wevs).posts.map Post.handler ++ pendingIds
        = wsubmittedIds wevs) := by
  constructor
  · exact ⟨queueIds (rrun ⟨[], []⟩ evs).queue,
      by simpa [queueIds] using rrun_ids ⟨[], []⟩ evs⟩
  · exact ⟨(wrun ⟨⟨0, 0, 0, none⟩, []⟩ wevs).slot.handler.toList,
      by simpa using wrun_ids ⟨⟨0, 0, 0, none⟩, []⟩ wevs hwf⟩

/-- Witness for C7 at a concrete trace: two queued reads served in order,
one write submitted and completed. -/
theorem c7_fifo_order_witness :
    wwf ⟨⟨0, 0, 0, none⟩, []⟩
        [WEvent.submit 0 1 7, WEvent.canWrite (fun _ => 3) 1, WEvent.complete ErrorCode.Success]
      = true ∧
    ((∃ pendingIds,
        (rrun ⟨[], []⟩
            [REvent.submit false 0 1 none 1, REvent.submit true 10 1 none 2,
             REvent.canRead false [65], REvent.complete (fun _ => 65) ErrorCode.Success]).posts.map
            Post.handler ++ pendingIds
          = submittedIds
              [REvent.submit false 0 1 none 1, REvent.submit true 10 1 none 2,
               REvent.canRead false [65], REvent.complete (fun _ => 65) ErrorCode.Success]) ∧
     (∃ pendingIds,
        (wrun ⟨⟨0, 0, 0, none⟩, []⟩
            [WEvent.submit 0 1 7, WEvent.canWrite (fun _ => 3) 1,
             WEvent.complete ErrorCode.Success]).posts.map Post.handler ++ pendingIds
          = wsubmittedIds
              [WEvent.submit 0 1 7, WEvent.canWrite (fun _ => 3) 1,
               WEvent.complete ErrorCode.Success])) :=
  ⟨rfl,
   c7_fifo_order
     [REvent.submit false 0 1 none 1, REvent.submit true 10 1 none 2,
      REvent.canRead false [65], REvent.complete (fun _ => 65) ErrorCode.Success]
     [WEvent.submit 0 1 7, WEvent.canWrite (fun _ => 3) 1,
      WEvent.complete ErrorCode.Success] rfl⟩

/-- C4: zero-size requests complete immediately without touching the
device: `asyncRead(buf, 0, h)` posts `(Success, 0)`, `asyncReadUntil(buf,
0, pred, h)` with a predicate posts `(BufferOverflow, 0)`, `asyncWrite(buf,
0, h)` posts `(Success, 0)`, and in every case the recorded device-op
trace contains no `startRead`/`startWrite` (single-slot engines: no device
op at all; queued engine: only the suspend of the enqueue protocol). -/
theorem c4_zero_size_requests (info : ReadInfo) (winfo : WriteInfo)
    (p : Nat → Bool) (buf h : Nat) :
    CharacterReadSupport1.asyncRead info buf 0 h
      = (⟨buf, buf, 0, none, none⟩, some ⟨h, ErrorCode.Success, 0, false⟩, []) ∧
    CharacterReadSupport1.asyncReadUntil info buf 0 (some p) h
      = (⟨buf, buf, 0, none, some p⟩, some ⟨h, ErrorCode.BufferOverflow, 0, false⟩, []) ∧
    CharacterWriteSupport1.asyncWrite winfo buf 0 h
      = (⟨buf, buf, 0, none⟩, some ⟨h, ErrorCode.Success, 0, false⟩, []) ∧
    CharacterReadSupportQ.asyncRead false [] buf 0 h
      = ([], [⟨h, ErrorCode.Success, 0, false⟩], [DevOp.suspendDev]) ∧
    CharacterReadSupportQ.asyncReadUntil false [] buf 0 (some p) h
      = ([], [⟨h, ErrorCode.BufferOverflow, 0, false⟩], [DevOp.suspendDev]) := by
  refine ⟨?_, ?_, ?_, ?_, ?_⟩ <;>
    simp [CharacterReadSupport1.asyncRead, CharacterReadSupport1.asyncReadUntil,
      CharacterReadSupport1.initRead, CharacterWriteSupport1.asyncWrite,
      CharacterWriteSupport1.initWrite, CharacterReadSupportQ.asyncRead,
      CharacterReadSupportQ.asyncReadUntil, CharacterReadSupportQ.startNextRead,
      invokeHandler, invokeHandlerW, mkReadInfo]

/-- C5: `cancelRead()` returns false and posts nothing when the
device-level cancel fails; otherwise it posts `(Aborted, bytes at cancel
time)` for every pending request, empties the queue/slot and returns true
— for the queued read engine, the single-slot read engine, and
`cancelWrite()` on the single-slot write engine. -/
theorem c5_cancel_protocol (q : List ReadInfo) (info : ReadInfo)
    (winfo : WriteInfo) :
    CharacterReadSupportQ.cancelRead false q = (false, q, []) ∧
    (CharacterReadSupportQ.cancelRead true q).1 = true ∧
    (CharacterReadSupportQ.cancelRead true q).2.1 = [] ∧
    ((∀ i ∈ q, i.handler.isSome) →
      (CharacterReadSupportQ.cancelRead true q).2.2
        = q.map fun i =>
            ⟨i.handler.getD 0, ErrorCode.Aborted, i.current - i.start, false⟩) ∧
    CharacterReadSupport1.cancelRead false info = (false, info, none) ∧
    (info.handler.isSome →
      CharacterReadSupport1.cancelRead true info
        = (true, { info with handler := none },
           some ⟨info.handler.getD 0, ErrorCode.Aborted,
                 info.current - info.start, false⟩)) ∧
    CharacterWriteSupport1.cancelWrite false winfo = (false, winfo, none) ∧
    (winfo.handler.isSome →
      CharacterWriteSupport1.cancelWrite true winfo
        = (true, { winfo with handler := none },
           some ⟨winfo.handler.getD 0, ErrorCode.Aborted,
                 winfo.current - winfo.start, false⟩)) := by
  refine ⟨?_, ?_, ?_, ?_, ?_, ?_, ?_, ?_⟩
  · simp [CharacterReadSupportQ.cancelRead]
  · simp [CharacterReadSupportQ.cancelRead]
  · simp [CharacterReadSupportQ.cancelRead]
  · intro hq
    simp only [CharacterReadSupportQ.cancelRead, if_true]
    induction q with
    | nil => simp
    | cons i rest ih =>
      have hi : i.handler.isSome := hq i (List.mem_cons_self i rest)
      obtain ⟨v, hv⟩ := Option.isSome_iff_exists.mp hi
      simp only [List.filterMap_cons, List.map_cons, invokeHandler, hv,
        Option.map_some]
      exact congrArg _ (ih fun j hj => hq j (List.mem_cons_of_mem i hj))
  · simp [CharacterReadSupport1.cancelRead]
  · intro hi
    obtain ⟨v, hv⟩ := Option.isSome_iff_exists.mp hi
    simp [CharacterReadSupport1.cancelRead, invokeHandler, hv]
  · simp [CharacterWriteSupport1.cancelWrite]
  · intro hw
    obtain ⟨v, hv⟩ := Option.isSome_iff_exists.mp hw
    simp [CharacterWriteSupport1.cancelWrite, invokeHandlerW, hv]

/-- Witness for C5 at concrete inputs: one queued request aborted at
cursor 2, single-slot read aborted at cursor 1, write aborted at cursor
3. -/
theorem c5_cancel_protocol_witness :
    (∀ i ∈ [(⟨0, 2, 4, some 5, none⟩ : ReadInfo)], i.handler.isSome) ∧
    (⟨10, 11, 4, some 6, none⟩ : ReadInfo).handler.isSome ∧
    (⟨20, 23, 8, some 7⟩ : WriteInfo).handler.isSome ∧
    (CharacterReadSupportQ.cancelRead false [⟨0, 2, 4, some 5, none⟩]
        = (false, [⟨0, 2, 4, some 5, none⟩], []) ∧
     (CharacterReadSupportQ.cancelRead true [(⟨0, 2, 4, some 5, none⟩ : ReadInfo)]).1 = true ∧
     (CharacterReadSupportQ.cancelRead true [(⟨0, 2, 4, some 5, none⟩ : ReadInfo)]).2.1 = [] ∧
     ((∀ i ∈ [(⟨0, 2, 4, some 5, none⟩ : ReadInfo)], i.handler.isSome) →
       (CharacterReadSupportQ.cancelRead true [(⟨0, 2, 4, some 5, none⟩ : ReadInfo)]).2.2
         = [(⟨0, 2, 4, some 5, none⟩ : ReadInfo)].map fun i =>
             ⟨i.handler.getD 0, ErrorCode.Aborted, i.current - i.start, false⟩) ∧
     CharacterReadSupport1.cancelRead false ⟨10, 11, 4, some 6, none⟩
        = (false, ⟨10, 11, 4, some 6, none⟩, none) ∧
     ((⟨10, 11, 4, some 6, none⟩ : ReadInfo).handler.isSome →
       CharacterReadSupport1.cancelRead true ⟨10, 11, 4, some 6, none⟩
         = (true, { (⟨10, 11, 4, some 6, none⟩ : ReadInfo) with handler := none },
            some ⟨(⟨10, 11, 4, some 6, none⟩ : ReadInfo).handler.getD 0,
                  ErrorCode.Aborted, 11 - 10, false⟩)) ∧
     CharacterWriteSupport1.cancelWrite false ⟨20, 23, 8, some 7⟩
        = (false, ⟨20, 23, 8, some 7⟩, none) ∧
     ((⟨20, 23, 8, some 7⟩ : WriteInfo).handler.isSome →
       CharacterWriteSupport1.cancelWrite true ⟨20, 23, 8, some 7⟩
         = (true, { (⟨20, 23, 8, some 7⟩ : WriteInfo) with handler := none },
            some ⟨(⟨20, 23, 8, some 7⟩ : WriteInfo).handler.getD 0,
                  ErrorCode.Aborted, 23 - 20, false⟩))) :=
  ⟨by decide, rfl, rfl,
   c5_cancel_protocol [⟨0, 2, 4, some 5, none⟩] ⟨10, 11, 4, some 6, none⟩
     ⟨20, 23, 8, some 7⟩⟩

/-- C8: the queued enqueue protocol — the device is suspended and the new
request goes to the back of the queue; when the device was running it is
only resumed and no device start happens; otherwise the queue holds
exactly the new entry and `startNextRead` runs in event-loop context (for
a nonzero size this is a single `startRead(size, EventLoopCtx)`). -/
theorem c8_enqueue_protocol (q : List ReadInfo) (buf size : Nat)
    (pred : Option (Nat → Bool)) (h : Nat) :
    CharacterReadSupportQ.asyncReadUntil true q buf size pred h
      = (q ++ [mkReadInfo buf size h pred], [], [DevOp.suspendDev, DevOp.resumeDev]) ∧
    CharacterReadSupportQ.asyncReadUntil false [] buf size pred h
      = ((CharacterReadSupportQ.startNextRead false [mkReadInfo buf size h pred]).1,
         (CharacterReadSupportQ.startNextRead false [mkReadInfo buf size h pred]).2.1,
         DevOp.suspendDev
           :: (CharacterReadSupportQ.startNextRead false [mkReadInfo buf size h pred]).2.2) ∧
    (size ≠ 0 →
      CharacterReadSupportQ.asyncReadUntil false [] buf size pred h
        = ([mkReadInfo buf size h pred], [],
           [DevOp.suspendDev, DevOp.startRead size false])) := by
  refine ⟨?_, ?_, fun hz => ?_⟩
  · simp [CharacterReadSupportQ.asyncReadUntil]
  · simp [CharacterReadSupportQ.asyncReadUntil]
  · simp [CharacterReadSupportQ.asyncReadUntil,
      CharacterReadSupportQ.startNextRead, mkReadInfo, hz]

/-- Witness for C8 at concrete inputs (size 3). -/
theorem c8_enqueue_protocol_witness :
    (3 : Nat) ≠ 0 ∧
    (CharacterReadSupportQ.asyncReadUntil true [] 0 3 none 1
        = ([mkReadInfo 0 3 1 none], [], [DevOp.suspendDev, DevOp.resumeDev]) ∧
     CharacterReadSupportQ.asyncReadUntil false [] 0 3 none 1
        = ((CharacterReadSupportQ.startNextRead false [mkReadInfo 0 3 1 none]).1,
           (CharacterReadSupportQ.startNextRead false [mkReadInfo 0 3 1 none]).2.1,
           DevOp.suspendDev
             :: (CharacterReadSupportQ.startNextRead false [mkReadInfo 0 3 1 none]).2.2) ∧
     ((3 : Nat) ≠ 0 →
       CharacterReadSupportQ.asyncReadUntil false [] 0 3 none 1
         = ([mkReadInfo 0 3 1 none], [],
            [DevOp.suspendDev, DevOp.startRead 3 false]))) :=
  ⟨by decide, c8_enqueue_protocol [] 0 3 none 1⟩

/-- With no stored predicate the queued drain loop neither posts nor calls
the device beyond reading bytes. -/
theorem canReadLoop_no_pred (ci : Bool) (pending : List Nat) (info : ReadInfo)
    (rest : List ReadInfo) (hp : info.pred = none) :
    (CharacterReadSupportQ.canReadLoop ci pending info rest).2.1 = [] ∧
    (CharacterReadSupportQ.canReadLoop ci pending info rest).2.2.2 = [] := by
  induction pending generalizing info with
  | nil => simp [CharacterReadSupportQ.canReadLoop]
  | cons ch more ih =>
    by_cases hb : info.start + info.bufSize ≤ info.current
    · simp [CharacterReadSupportQ.canReadLoop, hb]
    · have hs : seekedCharFound ch info = false := by simp [seekedCharFound, hp]
      simpa [CharacterReadSupportQ.canReadLoop, hb, hs] using
        ih { info with current := info.current + 1 } hp

/-- With no stored predicate the single-slot drain loop neither posts nor
calls the device beyond reading bytes. -/
theorem canReadLoop1_no_pred (ci : Bool) (pending : List Nat) (info : ReadInfo)
    (hp : info.pred = none) :
    (CharacterReadSupport1.canReadInterruptHandler ci pending info).2.1 = [] ∧
    (CharacterReadSupport1.canReadInterruptHandler ci pending info).2.2.2 = [] := by
  induction pending generalizing info with
  | nil => simp [CharacterReadSupport1.canReadInterruptHandler]
  | cons ch more ih =>
    by_cases hb : info.start + info.bufSize ≤ info.current
    · simp [CharacterReadSupport1.canReadInterruptHandler, hb]
    · have hs : seekedCharFound ch info = false := by simp [seekedCharFound, hp]
      simpa [CharacterReadSupport1.canReadInterruptHandler, hb, hs] using
        ih { info with current := info.current + 1 } hp

/-- C9: `asyncRead` behaves exactly like `asyncReadUntil` with an absent
predicate — the queued engine delegates outright, the single-slot engine
stores the same slot state; `seekedCharFound` is constantly false without
a predicate, so a predicate-free request never short-circuits (the drain
loops post nothing and attempt no in-interrupt cancel) and completes
either through the zero-size path with `Success` or from the read-complete
ISR with the device-reported status. -/
theorem c9_asyncRead_is_predless_asyncReadUntil (w ci : Bool)
    (q rest : List ReadInfo) (info : ReadInfo) (pending : List Nat)
    (mem : Nat → Nat) (es : ErrorCode) (buf size h ch : Nat)
    (hp : info.pred = none) :
    CharacterReadSupportQ.asyncRead w q buf size h
      = CharacterReadSupportQ.asyncReadUntil w q buf size none h ∧
    CharacterReadSupport1.asyncRead info buf size h
      = CharacterReadSupport1.asyncReadUntil info buf size none h ∧
    seekedCharFound ch info = false ∧
    (CharacterReadSupportQ.canReadLoop ci pending info rest).2.1 = [] ∧
    (CharacterReadSupportQ.canReadLoop ci pending info rest).2.2.2 = [] ∧
    (CharacterReadSupport1.canReadInterruptHandler ci pending info).2.1 = [] ∧
    (CharacterReadSupport1.canReadInterruptHandler ci pending info).2.2.2 = [] ∧
    CharacterReadSupport1.readCompleteInterruptHandler mem es info
      = invokeHandler info es true ∧
    (CharacterReadSupportQ.readCompleteInterruptHandler mem es (info :: rest)).2.1
      = (invokeHandler info es true).2.toList
          ++ (CharacterReadSupportQ.startNextRead true rest).2.1 ∧
    (CharacterReadSupport1.asyncRead info buf 0 h).2.1
      = some ⟨h, ErrorCode.Success, 0, false⟩ := by
  have hs : ∀ c : Nat, seekedCharFound c info = false := by
    intro c; simp [seekedCharFound, hp]
  refine ⟨rfl, rfl, hs ch, (canReadLoop_no_pred ci pending info rest hp).1,
    (canReadLoop_no_pred ci pending info rest hp).2,
    (canReadLoop1_no_pred ci pending info hp).1,
    (canReadLoop1_no_pred ci pending info hp).2, ?_, ?_, ?_⟩
  · simp [CharacterReadSupport1.readCompleteInterruptHandler, hs]
  · simp [CharacterReadSupportQ.readCompleteInterruptHandler, hs]
  · simp [CharacterReadSupport1.asyncRead, CharacterReadSupport1.initRead,
      invokeHandler]

/-- Witness for C9 at concrete inputs. -/
theorem c9_asyncRead_is_predless_asyncReadUntil_witness :
    (⟨0, 1, 4, some 5, none⟩ : ReadInfo).pred = none ∧
    (CharacterReadSupportQ.asyncRead false [] 0 4 5
        = CharacterReadSupportQ.asyncReadUntil false [] 0 4 none 5 ∧
     CharacterReadSupport1.asyncRead ⟨0, 1, 4, some 5, none⟩ 0 4 5
        = CharacterReadSupport1.asyncReadUntil ⟨0, 1, 4, some 5, none⟩ 0 4 none 5 ∧
     seekedCharFound 7 ⟨0, 1, 4, some 5, none⟩ = false ∧
     (CharacterReadSupportQ.canReadLoop false [7, 8] ⟨0, 1, 4, some 5, none⟩ []).2.1 = [] ∧
     (CharacterReadSupportQ.canReadLoop false [7, 8] ⟨0, 1, 4, some 5, none⟩ []).2.2.2 = [] ∧
     (CharacterReadSupport1.canReadInterruptHandler false [7, 8] ⟨0, 1, 4, some 5, none⟩).2.1 = [] ∧
     (CharacterReadSupport1.canReadInterruptHandler false [7, 8] ⟨0, 1, 4, some 5, none⟩).2.2.2 = [] ∧
     CharacterReadSupport1.readCompleteInterruptHandler (fun _ => 7) ErrorCode.Success
         ⟨0, 1, 4, some 5, none⟩
        = invokeHandler ⟨0, 1, 4, some 5, none⟩ ErrorCode.Success true ∧
     (CharacterReadSupportQ.readCompleteInterruptHandler (fun _ => 7) ErrorCode.Success
         [⟨0, 1, 4, some 5, none⟩]).2.1
        = (invokeHandler ⟨0, 1, 4, some 5, none⟩ ErrorCode.Success true).2.toList
            ++ (CharacterReadSupportQ.startNextRead true []).2.1 ∧
     (CharacterReadSupport1.asyncRead ⟨0, 1, 4, some 5, none⟩ 0 0 5).2.1
        = some ⟨5, ErrorCode.Success, 0, false⟩) :=
  ⟨rfl, c9_asyncRead_is_predless_asyncReadUntil false false [] []
    ⟨0, 1, 4, some 5, none⟩ [7, 8] (fun _ => 7) ErrorCode.Success 0 4 5 7 rfl⟩

/-- C10: whenever a device-level cancel succeeds, under the driver's
asserted state (handler still stored, cursor strictly below
`start + size`) every `Aborted` completion reports strictly fewer bytes
than the requested size — for the queued read engine, the single-slot read
engine and the single-slot write engine. -/
theorem c10_abort_reports_partial (q : List ReadInfo) (info : ReadInfo)
    (winfo : WriteInfo)
    (hq : ∀ i ∈ q, i.handler.isSome ∧ i.start ≤ i.current ∧
            i.current < i.start + i.bufSize)
    (hi : info.handler.isSome) (hi1 : info.start ≤ info.current)
    (hi2 : info.current < info.start + info.bufSize)
    (hw : winfo.handler.isSome) (hw1 : winfo.start ≤ winfo.current)
    (hw2 : winfo.current < winfo.start + winfo.bufSize) :
    (∀ p ∈ (CharacterReadSupportQ.cancelRead true q).2.2,
       p.es = ErrorCode.Aborted ∧
       ∃ i ∈ q, p.count = i.current - i.start ∧ p.count < i.bufSize) ∧
    (∃ p, (CharacterReadSupport1.cancelRead true info).2.2 = some p ∧
       p.es = ErrorCode.Aborted ∧ p.count = info.current - info.start ∧
       p.count < info.bufSize) ∧
    (∃ p, (CharacterWriteSupport1.cancelWrite true winfo).2.2 = some p ∧
       p.es = ErrorCode.Aborted ∧ p.count = winfo.current - winfo.start ∧
       p.count < winfo.bufSize) := by
  refine ⟨?_, ?_, ?_⟩
  · intro p hp
    simp only [CharacterReadSupportQ.cancelRead, if_true,
      List.mem_filterMap] at hp
    obtain ⟨i, hiq, heq⟩ := hp
    obtain ⟨hhand, hle, hlt⟩ := hq i hiq
    obtain ⟨v, hv⟩ := Option.isSome_iff_exists.mp hhand
    simp only [invokeHandler, hv, Option.map_some', Option.some_inj] at heq
    subst heq
    exact ⟨rfl, i, hiq, rfl, by show i.current - i.start < i.bufSize; omega⟩
  · obtain ⟨v, hv⟩ := Option.isSome_iff_exists.mp hi
    refine ⟨⟨v, ErrorCode.Aborted, info.current - info.start, false⟩, ?_, rfl, rfl,
      by show info.current - info.start < info.bufSize; omega⟩
    simp [CharacterReadSupport1.cancelRead, invokeHandler, hv]
  · obtain ⟨v, hv⟩ := Option.isSome_iff_exists.mp hw
    refine ⟨⟨v, ErrorCode.Aborted, winfo.current - winfo.start, false⟩, ?_, rfl, rfl,
      by show winfo.current - winfo.start < winfo.bufSize; omega⟩
    simp [CharacterWriteSupport1.cancelWrite, invokeHandlerW, hv]

/-- Witness for C10 at concrete inputs. -/
theorem c10_abort_reports_partial_witness :
    (∀ i ∈ [(⟨0, 2, 4, some 5, none⟩ : ReadInfo)],
       i.handler.isSome ∧ i.start ≤ i.current ∧ i.current < i.start + i.bufSize) ∧
    (⟨10, 11, 4, some 6, none⟩ : ReadInfo).handler.isSome ∧
    (10 : Nat) ≤ 11 ∧ (11 : Nat) < 10 + 4 ∧
    (⟨20, 23, 8, some 7⟩ : WriteInfo).handler.isSome ∧
    (20 : Nat) ≤ 23 ∧ (23 : Nat) < 20 + 8 ∧
    ((∀ p ∈ (CharacterReadSupportQ.cancelRead true
          [(⟨0, 2, 4, some 5, none⟩ : ReadInfo)]).2.2,
        p.es = ErrorCode.Aborted ∧
        ∃ i ∈ [(⟨0, 2, 4, some 5, none⟩ : ReadInfo)],
          p.count = i.current - i.start ∧ p.count < i.bufSize) ∧
     (∃ p, (CharacterReadSupport1.cancelRead true ⟨10, 11, 4, some 6, none⟩).2.2 = some p ∧
        p.es = ErrorCode.Aborted ∧ p.count = 11 - 10 ∧ p.count < 4) ∧
     (∃ p, (CharacterWriteSupport1.cancelWrite true ⟨20, 23, 8, some 7⟩).2.2 = some p ∧
        p.es = ErrorCode.Aborted ∧ p.count = 23 - 20 ∧ p.count < 8)) :=
  ⟨by decide, rfl, by decide, by decide, rfl, by decide, by decide,
   c10_abort_reports_partial [⟨0, 2, 4, some 5, none⟩] ⟨10, 11, 4, some 6, none⟩
     ⟨20, 23, 8, some 7⟩ (by decide) rfl (by decide) (by decide) rfl
     (by decide) (by decide)⟩

/-- C2: on a "read complete" interrupt with status `es` for the front
request — if `es` is an error, or no predicate is stored, or the last byte
read does not satisfy it, the handler is posted with
`(es, current - start)`; otherwise (last byte satisfies the predicate, and
the device completed, so the buffer is full) the handler is posted with
`(BufferOverflow, size)`. Holds for the queued engine (which then pops and
chains `startNextRead`) and the single-slot engine alike. -/
theorem c2_readComplete_dispatch (mem : Nat → Nat) (es : ErrorCode)
    (info : ReadInfo) (rest : List ReadInfo) (hid : Nat)
    (hh : info.handler = some hid) :
    ((isError es = true ∨ seekedCharFound (mem (info.current - 1)) info = false) →
      (CharacterReadSupportQ.readCompleteInterruptHandler mem es (info :: rest)).2.1
          = ⟨hid, es, info.current - info.start, true⟩
              :: (CharacterReadSupportQ.startNextRead true rest).2.1 ∧
      (CharacterReadSupport1.readCompleteInterruptHandler mem es info).2
          = some ⟨hid, es, info.current - info.start, true⟩) ∧
    (isError es = false → seekedCharFound (mem (info.current - 1)) info = true →
      info.current = info.start + info.bufSize →
      (CharacterReadSupportQ.readCompleteInterruptHandler mem es (info :: rest)).2.1
          = ⟨hid, ErrorCode.BufferOverflow, info.bufSize, true⟩
              :: (CharacterReadSupportQ.startNextRead true rest).2.1 ∧
      (CharacterReadSupport1.readCompleteInterruptHandler mem es info).2
          = some ⟨hid, ErrorCode.BufferOverflow, info.bufSize, true⟩) ∧
    (CharacterReadSupportQ.readCompleteInterruptHandler mem es (info :: rest)).1
        = (CharacterReadSupportQ.startNextRead true rest).1 := by
  refine ⟨?_, ?_, rfl⟩
  · intro hcond
    have hc : (isError es || !seekedCharFound (mem (info.current - 1)) info) = true := by
      rcases hcond with h | h <;> simp [h]
    constructor <;>
      simp [CharacterReadSupportQ.readCompleteInterruptHandler,
        CharacterReadSupport1.readCompleteInterruptHandler, hc, invokeHandler, hh]
  · intro h1 h2 h3
    have hc : (isError es || !seekedCharFound (mem (info.current - 1)) info) = false := by
      simp [h1, h2]
    constructor <;>
      (simp [CharacterReadSupportQ.readCompleteInterruptHandler,
         CharacterReadSupport1.readCompleteInterruptHandler, hc, invokeHandler,
         hh, Post.mk.injEq];
       omega)

/-- Witness for C2: a predicate on byte 10, buffer of size 3 filled, the
last byte matches at device-reported completion, so `BufferOverflow` is
posted; the error branch is vacuously available. -/
theorem c2_readComplete_dispatch_witness :
    (⟨0, 3, 3, some 7, some (fun c => c == 10)⟩ : ReadInfo).handler = some 7 ∧
    (((isError ErrorCode.Success = true ∨
        seekedCharFound ((fun _ => 10) (3 - 1 : Nat))
          (⟨0, 3, 3, some 7, some (fun c => c == 10)⟩ : ReadInfo) = false) →
       (CharacterReadSupportQ.readCompleteInterruptHandler (fun _ => 10)
           ErrorCode.Success [⟨0, 3, 3, some 7, some (fun c => c == 10)⟩]).2.1
           = ⟨7, ErrorCode.Success, 3 - 0, true⟩
               :: (CharacterReadSupportQ.startNextRead true []).2.1 ∧
       (CharacterReadSupport1.readCompleteInterruptHandler (fun _ => 10)
           ErrorCode.Success ⟨0, 3, 3, some 7, some (fun c => c == 10)⟩).2
           = some ⟨7, ErrorCode.Success, 3 - 0, true⟩) ∧
     (isError ErrorCode.Success = false →
      seekedCharFound ((fun _ => 10) (3 - 1 : Nat))
          (⟨0, 3, 3, some 7, some (fun c => c == 10)⟩ : ReadInfo) = true →
      (3 : Nat) = 0 + 3 →
       (CharacterReadSupportQ.readCompleteInterruptHandler (fun _ => 10)
           ErrorCode.Success [⟨0, 3, 3, some 7, some (fun c => c == 10)⟩]).2.1
           = ⟨7, ErrorCode.BufferOverflow, 3, true⟩
               :: (CharacterReadSupportQ.startNextRead true []).2.1 ∧
       (CharacterReadSupport1.readCompleteInterruptHandler (fun _ => 10)
           ErrorCode.Success ⟨0, 3, 3, some 7, some (fun c => c == 10)⟩).2
           = some ⟨7, ErrorCode.BufferOverflow, 3, true⟩) ∧
     (CharacterReadSupportQ.readCompleteInterruptHandler (fun _ => 10)
         ErrorCode.Success [⟨0, 3, 3, some 7, some (fun c => c == 10)⟩]).1
         = (CharacterReadSupportQ.startNextRead true []).1) :=
  ⟨rfl,
   c2_readComplete_dispatch (fun _ => 10) ErrorCode.Success
     ⟨0, 3, 3, some 7, some (fun c => c == 10)⟩ [] 7 rfl⟩

/-- When a completion is imminent every in-interrupt cancel fails, so the
queued drain loop posts nothing. -/
theorem canReadLoop_imminent_no_posts (pending : List Nat) (info : ReadInfo)
    (rest : List ReadInfo) :
    (CharacterReadSupportQ.canReadLoop true pending info rest).2.1 = [] := by
  induction pending generalizing info with
  | nil => simp [CharacterReadSupportQ.canReadLoop]
  | cons ch more ih =>
    by_cases hb : info.start + info.bufSize ≤ info.current
    · simp [CharacterReadSupportQ.canReadLoop, hb]
    · by_cases hs : seekedCharFound ch info <;>
        simpa [CharacterReadSupportQ.canReadLoop, hb, hs] using
          ih { info with current := info.current + 1 }

/-- When a completion is imminent the single-slot drain loop posts
nothing. -/
theorem canReadLoop1_imminent_no_posts (pending : List Nat) (info : ReadInfo) :
    (CharacterReadSupport1.canReadInterruptHandler true pending info).2.1 = [] := by
  induction pending generalizing info with
  | nil => simp [CharacterReadSupport1.canReadInterruptHandler]
  | cons ch more ih =>
    by_cases hb : info.start + info.bufSize ≤ info.current
    · simp [CharacterReadSupport1.canReadInterruptHandler, hb]
    · by_cases hs : seekedCharFound ch info <;>
        simpa [CharacterReadSupport1.canReadInterruptHandler, hb, hs] using
          ih { info with current := info.current + 1 }

/-- C3: in the "can read" ISR, after a byte is stored and the cursor
advanced, a predicate match triggers `device.cancelRead(InterruptCtx)`.
When the cancel succeeds the handler is posted with `(Success, k)` for
`k = current + 1 - start` bytes read so far (the byte just stored, at
offset `k - 1`, being the match), the request is popped, the next queued
read starts, and no further byte is drained; when the cancel fails
(completion imminent) the whole ISR posts nothing. The single-slot engine
behaves the same minus queue management. -/
theorem c3_canRead_short_circuit (ch hid : Nat) (more : List Nat)
    (info : ReadInfo) (rest : List ReadInfo)
    (hb : ¬ info.start + info.bufSize ≤ info.current)
    (hs : seekedCharFound ch info = true)
    (hh : info.handler = some hid) :
    CharacterReadSupportQ.canReadLoop false (ch :: more) info rest
      = ((CharacterReadSupportQ.startNextRead true rest).1,
         ⟨hid, ErrorCode.Success, info.current + 1 - info.start, true⟩
           :: (CharacterReadSupportQ.startNextRead true rest).2.1,
         [(info.current, ch)],
         DevOp.cancelRead true :: (CharacterReadSupportQ.startNextRead true rest).2.2) ∧
    CharacterReadSupport1.canReadInterruptHandler false (ch :: more) info
      = ({ info with current := info.current + 1, handler := none },
         [⟨hid, ErrorCode.Success, info.current + 1 - info.start, true⟩],
         [(info.current, ch)], [DevOp.cancelRead true]) ∧
    (info.start ≤ info.current →
      info.current = info.start + (info.current + 1 - info.start) - 1) ∧
    (∀ (pending : List Nat) (info2 : ReadInfo) (rest2 : List ReadInfo),
      (CharacterReadSupportQ.canReadLoop true pending info2 rest2).2.1 = [] ∧
      (CharacterReadSupport1.canReadInterruptHandler true pending info2).2.1 = []) := by
  refine ⟨?_, ?_, fun hle => by omega,
    fun pending info2 rest2 =>
      ⟨canReadLoop_imminent_no_posts pending info2 rest2,
       canReadLoop1_imminent_no_posts pending info2⟩⟩
  · simp [CharacterReadSupportQ.canReadLoop, hb, hs, invokeHandler, hh]
  · simp [CharacterReadSupport1.canReadInterruptHandler, hb, hs, invokeHandler, hh]

/-- Witness for C3: buffer of size 4 with two bytes read, predicate
matches byte 10, cancel succeeds. -/
theorem c3_canRead_short_circuit_witness :
    ¬ (0 : Nat) + 4 ≤ 2 ∧
    seekedCharFound 10 (⟨0, 2, 4, some 5, some (fun c => c == 10)⟩ : ReadInfo) = true ∧
    (⟨0, 2, 4, some 5, some (fun c => c == 10)⟩ : ReadInfo).handler = some 5 ∧
    (CharacterReadSupportQ.canReadLoop false [10, 9]
        ⟨0, 2, 4, some 5, some (fun c => c == 10)⟩ []
      = ((CharacterReadSupportQ.startNextRead true []).1,
         ⟨5, ErrorCode.Success, 2 + 1 - 0, true⟩
           :: (CharacterReadSupportQ.startNextRead true []).2.1,
         [(2, 10)],
         DevOp.cancelRead true :: (CharacterReadSupportQ.startNextRead true []).2.2) ∧
     CharacterReadSupport1.canReadInterruptHandler false [10, 9]
        ⟨0, 2, 4, some 5, some (fun c => c == 10)⟩
      = ({ (⟨0, 2, 4, some 5, some (fun c => c == 10)⟩ : ReadInfo) with
             current := 2 + 1, handler := none },
         [⟨5, ErrorCode.Success, 2 + 1 - 0, true⟩],
         [(2, 10)], [DevOp.cancelRead true]) ∧
     ((0 : Nat) ≤ 2 → (2 : Nat) = 0 + (2 + 1 - 0) - 1) ∧
     (∀ (pending : List Nat) (info2 : ReadInfo) (rest2 : List ReadInfo),
       (CharacterReadSupportQ.canReadLoop true pending info2 rest2).2.1 = [] ∧
       (CharacterReadSupport1.canReadInterruptHandler true pending info2).2.1 = [])) :=
  ⟨by decide, by decide, rfl,
   c3_canRead_short_circuit 10 5 [9] ⟨0, 2, 4, some 5, some (fun c => c == 10)⟩ []
     (by decide) (by decide) rfl⟩

/-- Every buffer store of the queued drain loop lands inside
`[start, start + bufSize)`. -/
theorem canReadLoop_writes_bounded (ci : Bool) (pending : List Nat)
    (info : ReadInfo) (rest : List ReadInfo) (hle : info.start ≤ info.current) :
    ∀ w ∈ (CharacterReadSupportQ.canReadLoop ci pending info rest).2.2.1,
      info.start ≤ w.1 ∧ w.1 < info.start + info.bufSize := by
  induction pending generalizing info with
  | nil =>
    intro w hw
    simp [CharacterReadSupportQ.canReadLoop] at hw
  | cons ch more ih =>
    intro w hw
    by_cases hb : info.start + info.bufSize ≤ info.current
    · simp [CharacterReadSupportQ.canReadLoop, hb] at hw
    · have ihnext := ih { info with current := info.current + 1 } (by simp; omega)
      by_cases hs : seekedCharFound ch info
      · cases ci with
        | false =>
          simp [CharacterReadSupportQ.canReadLoop, hb, hs] at hw
          simp [hw]
          omega
        | true =>
          simp only [CharacterReadSupportQ.canReadLoop, hb, if_false, hs,
            if_true, List.mem_cons] at hw
          rcases hw with hw | hw
          · simp [hw]; omega
          · simpa using ihnext w hw
      · simp only [CharacterReadSupportQ.canReadLoop, hb, if_false, hs,
          Bool.false_eq_true, List.mem_cons] at hw
        rcases hw with hw | hw
        · simp [hw]; omega
        · simpa using ihnext w hw

/-- The single-slot drain loop keeps the cursor inside
`[start, start + bufSize]` and every buffer store inside
`[start, start + bufSize)`. -/
theorem canReadLoop1_bounded (ci : Bool) (pending : List Nat) (info : ReadInfo)
    (hle : info.start ≤ info.current)
    (hub : info.current ≤ info.start + info.bufSize) :
    ((CharacterReadSupport1.canReadInterruptHandler ci pending info).1.start
        = info.start ∧
     (CharacterReadSupport1.canReadInterruptHandler ci pending info).1.bufSize
        = info.bufSize ∧
     info.start ≤ (CharacterReadSupport1.canReadInterruptHandler ci pending info).1.current ∧
     (CharacterReadSupport1.canReadInterruptHandler ci pending info).1.current
        ≤ info.start + info.bufSize) ∧
    ∀ w ∈ (CharacterReadSupport1.canReadInterruptHandler ci pending info).2.2.1,
      info.start ≤ w.1 ∧ w.1 < info.start + info.bufSize := by
  induction pending generalizing info with
  | nil =>
    refine ⟨⟨rfl, rfl, hle, hub⟩, ?_⟩
    intro w hw
    simp [CharacterReadSupport1.canReadInterruptHandler] at hw
  | cons ch more ih =>
    by_cases hb : info.start + info.bufSize ≤ info.current
    · refine ⟨?_, ?_⟩
      · simp [CharacterReadSupport1.canReadInterruptHandler, hb, hle, hub]
      · intro w hw
        simp [CharacterReadSupport1.canReadInterruptHandler, hb] at hw
    · have ihnext := ih { info with current := info.current + 1 }
        (by simp; omega) (by simp; omega)
      by_cases hs : seekedCharFound ch info
      · cases ci with
        | false =>
          refine ⟨?_, ?_⟩
          · simp [CharacterReadSupport1.canReadInterruptHandler, hb, hs,
              invokeHandler]
            omega
          · intro w hw
            simp [CharacterReadSupport1.canReadInterruptHandler, hb, hs] at hw
            simp [hw]
            omega
        | true =>
          refine ⟨?_, ?_⟩
          · simpa [CharacterReadSupport1.canReadInterruptHandler, hb, hs] using
              ihnext.1
          · intro w hw
            simp only [CharacterReadSupport1.canReadInterruptHandler, hb,
              if_false, hs, if_true, List.mem_cons] at hw
            rcases hw with hw | hw
            · simp [hw]; omega
            · simpa using ihnext.2 w hw
      · refine ⟨?_, ?_⟩
        · simpa [CharacterReadSupport1.canReadInterruptHandler, hb, hs] using
            ihnext.1
        · intro w hw
          simp only [CharacterReadSupport1.canReadInterruptHandler, hb,
            if_false, hs, Bool.false_eq_true, List.mem_cons] at hw
          rcases hw with hw | hw
          · simp [hw]; omega
          · simpa using ihnext.2 w hw

/-- The write drain loop keeps the cursor inside `[start, start + bufSize]`
and every buffer fetch inside `[start, start + bufSize)`. -/
theorem canWriteLoop_bounded (mem : Nat → Nat) (space : Nat) (winfo : WriteInfo)
    (hle : winfo.start ≤ winfo.current)
    (hub : winfo.current ≤ winfo.start + winfo.bufSize) :
    ((CharacterWriteSupport1.canWriteInterruptHandler mem space winfo).1.start
        = winfo.start ∧
     (CharacterWriteSupport1.canWriteInterruptHandler mem space winfo).1.bufSize
        = winfo.bufSize ∧
     winfo.start ≤ (CharacterWriteSupport1.canWriteInterruptHandler mem space winfo).1.current ∧
     (CharacterWriteSupport1.canWriteInterruptHandler mem space winfo).1.current
        ≤ winfo.start + winfo.bufSize) ∧
    ∀ w ∈ (CharacterWriteSupport1.canWriteInterruptHandler mem space winfo).2,
      winfo.start ≤ w.1 ∧ w.1 < winfo.start + winfo.bufSize := by
  induction space generalizing winfo with
  | zero =>
    refine ⟨⟨rfl, rfl, hle, hub⟩, ?_⟩
    intro w hw
    simp [CharacterWriteSupport1.canWriteInterruptHandler] at hw
  | succ n ih =>
    by_cases hb : winfo.start + winfo.bufSize ≤ winfo.current
    · refine ⟨?_, ?_⟩
      · simp [CharacterWriteSupport1.canWriteInterruptHandler, hb, hle, hub]
      · intro w hw
        simp [CharacterWriteSupport1.canWriteInterruptHandler, hb] at hw
    · have ihnext := ih { winfo with current := winfo.current + 1 }
        (by simp; omega) (by simp; omega)
      refine ⟨?_, ?_⟩
      · simpa [CharacterWriteSupport1.canWriteInterruptHandler, hb] using
          ihnext.1
      · intro w hw
        simp only [CharacterWriteSupport1.canWriteInterruptHandler, hb,
          if_false, List.mem_cons] at hw
        rcases hw with hw | hw
        · simp [hw]; omega
        · simpa using ihnext.2 w hw

/-- C6: the cursor stays within `[start, start + size]` at every ISR step,
no drain loop stores or fetches a byte outside `[start, start + size)`,
and when the cursor has reached `start + size` while the device still
reports readiness the loops stop (fatal-assertion branch) without
transferring another byte. -/
theorem c6_cursor_bounded (ci : Bool) (pending more : List Nat) (ch space : Nat)
    (mem : Nat → Nat) (info : ReadInfo) (rest : List ReadInfo)
    (winfo : WriteInfo)
    (hle : info.start ≤ info.current)
    (hub : info.current ≤ info.start + info.bufSize)
    (hwle : winfo.start ≤ winfo.current)
    (hwub : winfo.current ≤ winfo.start + winfo.bufSize) :
    (∀ w ∈ (CharacterReadSupportQ.canReadLoop ci pending info rest).2.2.1,
       info.start ≤ w.1 ∧ w.1 < info.start + info.bufSize) ∧
    (∀ w ∈ (CharacterReadSupport1.canReadInterruptHandler ci pending info).2.2.1,
       info.start ≤ w.1 ∧ w.1 < info.start + info.bufSize) ∧
    ((CharacterReadSupport1.canReadInterruptHandler ci pending info).1.start
        = info.start ∧
     (CharacterReadSupport1.canReadInterruptHandler ci pending info).1.bufSize
        = info.bufSize ∧
     info.start ≤ (CharacterReadSupport1.canReadInterruptHandler ci pending info).1.current ∧
     (CharacterReadSupport1.canReadInterruptHandler ci pending info).1.current
        ≤ info.start + info.bufSize) ∧
    (∀ w ∈ (CharacterWriteSupport1.canWriteInterruptHandler mem space winfo).2,
       winfo.start ≤ w.1 ∧ w.1 < winfo.start + winfo.bufSize) ∧
    ((CharacterWriteSupport1.canWriteInterruptHandler mem space winfo).1.start
        = winfo.start ∧
     (CharacterWriteSupport1.canWriteInterruptHandler mem space winfo).1.bufSize
        = winfo.bufSize ∧
     winfo.start ≤ (CharacterWriteSupport1.canWriteInterruptHandler mem space winfo).1.current ∧
     (CharacterWriteSupport1.canWriteInterruptHandler mem space winfo).1.current
        ≤ winfo.start + winfo.bufSize) ∧
    (info.start + info.bufSize ≤ info.current →
      CharacterReadSupportQ.canReadLoop ci (ch :: more) info rest
          = (info :: rest, [], [], []) ∧
      CharacterReadSupport1.canReadInterruptHandler ci (ch :: more) info
          = (info, [], [], [])) ∧
    (winfo.start + winfo.bufSize ≤ winfo.current →
      CharacterWriteSupport1.canWriteInterruptHandler mem (space + 1) winfo
          = (winfo, [])) := by
  refine ⟨canReadLoop_writes_bounded ci pending info rest hle,
    (canReadLoop1_bounded ci pending info hle hub).2,
    (canReadLoop1_bounded ci pending info hle hub).1,
    (canWriteLoop_bounded mem space winfo hwle hwub).2,
    (canWriteLoop_bounded mem space winfo hwle hwub).1,
    fun hfull => ?_, fun hfull => ?_⟩
  · constructor <;>
      simp [CharacterReadSupportQ.canReadLoop,
        CharacterReadSupport1.canReadInterruptHandler, hfull]
  · simp [CharacterWriteSupport1.canWriteInterruptHandler, hfull]

/-- Witness for C6: a read request with 1 of 4 bytes read draining two
bytes, a full write request (cursor at end) facing one more ready slot. -/
theorem c6_cursor_bounded_witness :
    (0 : Nat) ≤ 1 ∧ (1 : Nat) ≤ 0 + 4 ∧ (20 : Nat) ≤ 24 ∧ (24 : Nat) ≤ 20 + 4 ∧
    ((∀ w ∈ (CharacterReadSupportQ.canReadLoop false [8, 9]
          ⟨0, 1, 4, some 5, none⟩ []).2.2.1, (0 : Nat) ≤ w.1 ∧ w.1 < 0 + 4) ∧
     (∀ w ∈ (CharacterReadSupport1.canReadInterruptHandler false [8, 9]
          ⟨0, 1, 4, some 5, none⟩).2.2.1, (0 : Nat) ≤ w.1 ∧ w.1 < 0 + 4) ∧
     ((CharacterReadSupport1.canReadInterruptHandler false [8, 9]
          ⟨0, 1, 4, some 5, none⟩).1.start = 0 ∧
      (CharacterReadSupport1.canReadInterruptHandler false [8, 9]
          ⟨0, 1, 4, some 5, none⟩).1.bufSize = 4 ∧
      (0 : Nat) ≤ (CharacterReadSupport1.canReadInterruptHandler false [8, 9]
          ⟨0, 1, 4, some 5, none⟩).1.current ∧
      (CharacterReadSupport1.canReadInterruptHandler false [8, 9]
          ⟨0, 1, 4, some 5, none⟩).1.current ≤ 0 + 4) ∧
     (∀ w ∈ (CharacterWriteSupport1.canWriteInterruptHandler (fun _ => 3) 2
          ⟨20, 24, 4, some 6⟩).2, (20 : Nat) ≤ w.1 ∧ w.1 < 20 + 4) ∧
     ((CharacterWriteSupport1.canWriteInterruptHandler (fun _ => 3) 2
          ⟨20, 24, 4, some 6⟩).1.start = 20 ∧
      (CharacterWriteSupport1.canWriteInterruptHandler (fun _ => 3) 2
          ⟨20, 24, 4, some 6⟩).1.bufSize = 4 ∧
      (20 : Nat) ≤ (CharacterWriteSupport1.canWriteInterruptHandler (fun _ => 3) 2
          ⟨20, 24, 4, some 6⟩).1.current ∧
      (CharacterWriteSupport1.canWriteInterruptHandler (fun _ => 3) 2
          ⟨20, 24, 4, some 6⟩).1.current ≤ 20 + 4) ∧
     ((0 : Nat) + 4 ≤ 1 →
       CharacterReadSupportQ.canReadLoop false [7]
           ⟨0, 1, 4, some 5, none⟩ [] = ([⟨0, 1, 4, some 5, none⟩], [], [], []) ∧
       CharacterReadSupport1.canReadInterruptHandler false [7]
           ⟨0, 1, 4, some 5, none⟩ = (⟨0, 1, 4, some 5, none⟩, [], [], [])) ∧
     ((20 : Nat) + 4 ≤ 24 →
       CharacterWriteSupport1.canWriteInterruptHandler (fun _ => 3) (2 + 1)
           ⟨20, 24, 4, some 6⟩ = (⟨20, 24, 4, some 6⟩, []))) :=
  ⟨by decide, by decide, by decide, by decide,
   c6_cursor_bounded false [8, 9] [] 7 2 (fun _ => 3) ⟨0, 1, 4, some 5, none⟩ []
     ⟨20, 24, 4, some 6⟩ (by decide) (by decide) (by decide) (by decide)⟩

end Embxx
